import Mathlib

/-!
Verification development for `FileLock` (src/filelock/filelock.py), a
cross-process advisory lock built on exclusive creation of a marker file.

The Python class is embedded shallowly:

* `FileLock` mirrors the instance attributes set in `__init__`
  (`lockfile`, `fd`, `is_locked`, `timeout_sec`, `retry_delay_sec`).
* `FileLock.acquire` embeds the retry loop of `acquire` against an explicit
  trace of outcomes of the `os.open(..., O_CREAT | O_RDWR | O_EXCL)` calls,
  each failed call paired with the `time.time()` reading taken in the
  `except` branch.  The second component of the result lists the durations
  of the `time.sleep` calls performed.
* A deterministic filesystem model `World` (set of existing paths, set of
  open descriptors, a wall clock) gives world-based versions
  `FileLock.acquireFS`, `FileLock.release`, `FileLock.scopeEnter`
  (`__enter__`) and `FileLock.scopeExit` (`__exit__`), used for the
  round-trip, invariant and scoping claims.
* A two-process interleaving system `SysState`/`SysStep` captures the
  OS-level atomicity of exclusive creation for the mutual-exclusion claim.

Machine integers do not occur (paths are strings, times are exact
rationals, descriptors are naturals); fallible operations return explicit
result types carrying the instance state, mirroring the fact that a raised
Python exception leaves `self` as the statements executed so far left it.
-/

/-- Linux errno for "File exists" (`errno.EEXIST`). -/
def EEXIST : Nat := 17

/-- Linux errno for "Permission denied" (`errno.EACCES`). -/
def EACCES : Nat := 13

/-- Linux errno for "No such file or directory" (`errno.ENOENT`). -/
def ENOENT : Nat := 2

/-- Linux errno for "Bad file descriptor" (`errno.EBADF`). -/
def EBADF : Nat := 9

/-- The instance attributes assigned in `FileLock.__init__`. -/
structure FileLock where
  lockfile : String
  fd : Option Nat
  is_locked : Bool
  timeout_sec : Rat
  retry_delay_sec : Rat
deriving DecidableEq, Repr

/-- `os.path.join(a, b)` for two components on POSIX: an absolute second
component (one beginning with the separator `/`) replaces the first;
otherwise the separator is inserted unless the first component is empty or
already ends with `/`.  The begins-with/ends-with-separator tests are on
the character lists of the strings. -/
def osPathJoin (a b : String) : String :=
  if b.data.head? = some '/' then b
  else if a = "" ∨ a.data.getLast? = some '/' then a ++ b
  else a ++ "/" ++ b

/-- `FileLock.__init__(folder, filename, timeout_sec=300, retry_delay_sec=0.1)`:
stores `os.path.join(folder, "{}.lock".format(filename))`, a `None` handle,
`is_locked = False` and the two durations.  No filesystem access occurs. -/
def FileLock.init (folder filename : String) (timeout_sec retry_delay_sec : Rat) :
    FileLock :=
  { lockfile := osPathJoin folder (filename ++ ".lock")
    fd := none
    is_locked := false
    timeout_sec := timeout_sec
    retry_delay_sec := retry_delay_sec }

/-- Outcome of one `os.open(self.lockfile, O_CREAT | O_RDWR | O_EXCL)` call:
either a fresh descriptor, or an `OSError` with an errno, paired with the
`time.time()` value the `except` branch then reads. -/
inductive OpenOutcome where
  | ok (fd : Nat)
  | err (errno : Nat) (now : Rat)
deriving DecidableEq, Repr

/-- How a call to `acquire` terminates.  Every constructor carries the
instance state at termination, since a raised exception leaves `self`
as the loop body left it. -/
inductive AcquireResult where
  | success (st : FileLock)
  | timeoutErr (msg : String) (st : FileLock)
  | osErr (errno : Nat) (st : FileLock)
  | outOfTrace (st : FileLock)
deriving DecidableEq, Repr

/-- The instance state carried by an `AcquireResult`. -/
def AcquireResult.state : AcquireResult → FileLock
  | .success st => st
  | .timeoutErr _ st => st
  | .osErr _ st => st
  | .outOfTrace st => st

/-- The message of the `FileLockException` raised on timeout:
`"Timeout occurred for lockfile '%s'" % self.lockfile`. -/
def timeoutMsg (st : FileLock) : String :=
  "Timeout occurred for lockfile '" ++ st.lockfile ++ "'"

/-- The `while True` loop of `FileLock.acquire`, run against a trace of
open-call outcomes; `start_time` is the `time.time()` read on entry.
On `ok f`: `self.fd = f; self.is_locked = True; break`.
On `err e now`: re-raise unless `e in (EEXIST, EACCES)`; raise
`FileLockException` if `now - start_time >= self.timeout_sec`; otherwise
`time.sleep(self.retry_delay_sec)` (recorded in the returned list) and
retry.  An exhausted trace means the loop was still polling. -/
def FileLock.acquire (st : FileLock) (start_time : Rat) :
    List OpenOutcome → AcquireResult × List Rat
  | [] => (.outOfTrace st, [])
  | .ok f :: _ => (.success { st with fd := some f, is_locked := true }, [])
  | .err e now :: rest =>
    if ¬ (e = EEXIST ∨ e = EACCES) then (.osErr e st, [])
    else if st.timeout_sec ≤ now - start_time then
      (.timeoutErr (timeoutMsg st) st, [])
    else
      let res := FileLock.acquire st start_time rest
      (res.1, st.retry_delay_sec :: res.2)

/-- Deterministic filesystem model: the set of existing paths, the set of
open descriptors, the next fresh descriptor, and a wall clock. -/
structure World where
  files : List String
  openFds : List Nat
  nextFd : Nat
  now : Rat
deriving DecidableEq, Repr

/-- Result of `os.open(path, O_CREAT | O_RDWR | O_EXCL)` in the world
model: fails with `EEXIST` exactly when the path already exists, else
atomically creates the path and returns a fresh open descriptor. -/
inductive OpenFSResult where
  | ok (fd : Nat) (w : World)
  | alreadyExists (w : World)
deriving DecidableEq, Repr

/-- `os.open` with `O_CREAT | O_RDWR | O_EXCL` against the world model. -/
def osOpenExcl (w : World) (path : String) : OpenFSResult :=
  if path ∈ w.files then .alreadyExists w
  else .ok w.nextFd
    { files := path :: w.files
      openFds := w.nextFd :: w.openFds
      nextFd := w.nextFd + 1
      now := w.now }

/-- The `acquire` retry loop against the world model, with fuel bounding
the number of open attempts.  A failed attempt reads the clock, raises on
timeout, otherwise sleeps `retry_delay_sec` (advancing the clock) and
retries. -/
def FileLock.acquireFSLoop : Nat → FileLock → Rat → World → AcquireResult × World
  | 0, st, _, w => (.outOfTrace st, w)
  | Nat.succ fuel, st, start_time, w =>
    match osOpenExcl w st.lockfile with
    | .ok f w1 => (.success { st with fd := some f, is_locked := true }, w1)
    | .alreadyExists w1 =>
      if st.timeout_sec ≤ w1.now - start_time then
        (.timeoutErr (timeoutMsg st) st, w1)
      else
        FileLock.acquireFSLoop fuel st start_time
          { w1 with now := w1.now + st.retry_delay_sec }

/-- `FileLock.acquire` against the world model: `start_time = time.time()`
is the clock at entry, then the retry loop runs. -/
def FileLock.acquireFS (fuel : Nat) (st : FileLock) (w : World) :
    AcquireResult × World :=
  FileLock.acquireFSLoop fuel st w.now w

/-- A Python exception raised by `release`: `TypeError` from
`os.close(None)`, or an `OSError` carrying an errno. -/
inductive PyErr where
  | typeError
  | osError (errno : Nat)
deriving DecidableEq, Repr

/-- How `release` (or a scope exit) terminates: normally or by raising.
Both constructors carry the instance state and the world, since a raised
exception leaves `self` as the statements already executed left it. -/
inductive RelResult where
  | ok (st : FileLock) (w : World)
  | raised (e : PyErr) (st : FileLock) (w : World)
deriving DecidableEq, Repr

/-- The instance state carried by a `RelResult`. -/
def RelResult.state : RelResult → FileLock
  | .ok st _ => st
  | .raised _ st _ => st

/-- `FileLock.release`: `os.close(self.fd)` (a `TypeError` when `fd` is
`None`, `EBADF` when the descriptor is not open), then
`os.unlink(self.lockfile)` (`ENOENT` when the path is absent), then
`self.is_locked = False`.  The attribute `fd` is never reset. -/
def FileLock.release (st : FileLock) (w : World) : RelResult :=
  match st.fd with
  | none => .raised .typeError st w
  | some f =>
    if f ∈ w.openFds then
      let w1 : World :=
        { files := w.files, openFds := w.openFds.erase f
          nextFd := w.nextFd, now := w.now }
      if st.lockfile ∈ w1.files then
        .ok { st with is_locked := false }
          { files := w1.files.erase st.lockfile, openFds := w1.openFds
            nextFd := w1.nextFd, now := w1.now }
      else .raised (.osError ENOENT) st w1
    else .raised (.osError EBADF) st w

/-- `FileLock.__enter__`: `if not self.is_locked: self.acquire()`, then
`return self`. -/
def FileLock.scopeEnter (fuel : Nat) (st : FileLock) (w : World) :
    AcquireResult × World :=
  if st.is_locked then (.success st, w)
  else FileLock.acquireFS fuel st w

/-- `FileLock.__exit__`: `if self.is_locked: self.release()`. -/
def FileLock.scopeExit (st : FileLock) (w : World) : RelResult :=
  if st.is_locked then FileLock.release st w
  else .ok st w

/-- The direction of the spec's handle invariant the code maintains:
whenever `is_locked` is true, `fd` is non-`None`. -/
def HandleInv (st : FileLock) : Prop :=
  st.is_locked = true → st.fd ≠ none

/-- `FileLock("d", "f", 300, 0.1)`: a freshly constructed instance with
lock path `d/f.lock`. -/
def sampleLock : FileLock := FileLock.init "d" "f" 300 (1/10)

/-- `sampleLock` after a successful first acquisition that returned
descriptor 0. -/
def sampleHeld : FileLock := { sampleLock with fd := some 0, is_locked := true }

/-- An empty filesystem: no files, no open descriptors, clock at 0. -/
def sampleWorld0 : World := { files := [], openFds := [], nextFd := 0, now := 0 }

/-- The filesystem after `sampleLock` acquired on `sampleWorld0`:
`d/f.lock` exists and descriptor 0 is open. -/
def sampleWorldHeld : World :=
  { files := ["d/f.lock"], openFds := [0], nextFd := 1, now := 0 }

/-- State of the two-process interleaving system used for the
mutual-exclusion claim: whether the lock file exists, and whether each
process currently holds the lock (its `is_locked` flag). -/
structure SysState where
  fileExists : Bool
  holds1 : Bool
  holds2 : Bool
deriving DecidableEq, Repr

/-- Atomic transitions of two processes running `acquire`/`release` loops
against the same lock path.  An acquisition attempt is one atomic
exclusive-create call: it succeeds (creating the file) exactly when the
file is absent, and is a failed no-op otherwise; a release by the holder
unlinks the file. -/
inductive SysStep : SysState → SysState → Prop where
  | acquire1 (s : SysState) (hfile : s.fileExists = false) (hnot : s.holds1 = false) :
      SysStep s { fileExists := true, holds1 := true, holds2 := s.holds2 }
  | acquire2 (s : SysState) (hfile : s.fileExists = false) (hnot : s.holds2 = false) :
      SysStep s { fileExists := true, holds1 := s.holds1, holds2 := true }
  | attemptFail (s : SysState) (hfile : s.fileExists = true) : SysStep s s
  | release1 (s : SysState) (h : s.holds1 = true) :
      SysStep s { fileExists := false, holds1 := false, holds2 := s.holds2 }
  | release2 (s : SysState) (h : s.holds2 = true) :
      SysStep s { fileExists := false, holds1 := s.holds1, holds2 := false }

/-- Initial system state: no lock file, nobody holds the lock. -/
def SysInit : SysState := { fileExists := false, holds1 := false, holds2 := false }

/-- Reachability from the initial state along system transitions. -/
def SysReachable (s : SysState) : Prop :=
  Relation.ReflTransGen SysStep SysInit s

/-- Inductive invariant of the interleaving system: each holder excludes
the other, and a held lock is witnessed by the lock file. -/
def SysInv (s : SysState) : Prop :=
  (s.holds1 = true → s.holds2 = false ∧ s.fileExists = true) ∧
  (s.holds2 = true → s.holds1 = false ∧ s.fileExists = true)

/-- The system state after process 1 acquires from the initial state. -/
def sampleSysHeld : SysState := { fileExists := true, holds1 := true, holds2 := false }

/-! ### C6: construction -/

/-- C6: `__init__` is pure and total: for all arguments it returns an
instance with `is_locked = false`, a `None` handle, and
`lockfile = os.path.join(folder, filename + ".lock")`; when the folder is
nonempty, does not end in `/`, and the lock-file name is not absolute,
that path is literally `{folder}/{filename}.lock`. -/
theorem C6_construction (folder filename : String) (t r : Rat) :
    (FileLock.init folder filename t r).is_locked = false ∧
    (FileLock.init folder filename t r).fd = none ∧
    (FileLock.init folder filename t r).timeout_sec = t ∧
    (FileLock.init folder filename t r).retry_delay_sec = r ∧
    (FileLock.init folder filename t r).lockfile =
      osPathJoin folder (filename ++ ".lock") ∧
    ((filename ++ ".lock").data.head? ≠ some '/' → folder ≠ "" →
      folder.data.getLast? ≠ some '/' →
      (FileLock.init folder filename t r).lockfile =
        folder ++ "/" ++ (filename ++ ".lock")) := by
  refine ⟨rfl, rfl, rfl, rfl, rfl, ?_⟩
  intro h1 h2 h3
  simp only [FileLock.init, osPathJoin]
  rw [if_neg h1, if_neg (fun hc => hc.elim h2 h3)]

/-- Witness for C6 at `folder = "locks"`, `filename = "job"`,
`timeout_sec = 300`, `retry_delay_sec = 1/10`. -/
theorem C6_witness :
    (FileLock.init "locks" "job" 300 (1/10)).is_locked = false ∧
    (FileLock.init "locks" "job" 300 (1/10)).lockfile = "locks/job.lock" := by
  have h := C6_construction "locks" "job" 300 (1/10)
  exact ⟨h.1, (h.2.2.2.2.2 (by decide) (by decide) (by decide)).trans rfl⟩

/-! ### C4: timeout behaviour under persistent contention -/

/-- C4: when every open attempt fails with `EEXIST` ("persistent
contention"), `acquire` raises the `FileLockException` naming the lock
path exactly at the first attempt whose clock reading satisfies
`now - start_time >= timeout_sec`, having slept `retry_delay_sec` once
after each earlier failed attempt; if no reading reaches the timeout, the
loop is still polling, with one sleep per failed attempt (never
busy-spinning). -/
theorem C4_timeout_behavior (st : FileLock) (start_time : Rat) (ts : List Rat) :
    FileLock.acquire st start_time (ts.map fun t => OpenOutcome.err EEXIST t) =
      match ts.findIdx? (fun t => decide (st.timeout_sec ≤ t - start_time)) with
      | some i => (AcquireResult.timeoutErr (timeoutMsg st) st,
                   List.replicate i st.retry_delay_sec)
      | none => (AcquireResult.outOfTrace st,
                 List.replicate ts.length st.retry_delay_sec) := by
  induction ts with
  | nil => rfl
  | cons t ts ih =>
    by_cases h : st.timeout_sec ≤ t - start_time
    · simp [FileLock.acquire, List.findIdx?_cons, h]
    · rw [List.map_cons]
      rw [show FileLock.acquire st start_time
            (OpenOutcome.err EEXIST t :: ts.map fun t => OpenOutcome.err EEXIST t) =
          ((FileLock.acquire st start_time (ts.map fun t => OpenOutcome.err EEXIST t)).1,
            st.retry_delay_sec ::
              (FileLock.acquire st start_time (ts.map fun t => OpenOutcome.err EEXIST t)).2)
        from by simp [FileLock.acquire, h]]
      rw [ih, List.findIdx?_cons]
      simp only [h, decide_eq_true_eq, if_false, decide_eq_false h]
      cases hfi : ts.findIdx? (fun t => decide (st.timeout_sec ≤ t - start_time)) <;>
        simp [hfi, List.replicate_succ]

/-! ### Shape lemmas shared by several claims -/

/-- On every terminating path, `acquire` either succeeds — the new state
being the old one with only `fd` and `is_locked` changed — or ends with
the instance exactly as it started. -/
theorem acquire_shape (st : FileLock) (start_time : Rat) (trace : List OpenOutcome) :
    (∃ f, (FileLock.acquire st start_time trace).1 =
      .success { st with fd := some f, is_locked := true }) ∨
    (FileLock.acquire st start_time trace).1 = .timeoutErr (timeoutMsg st) st ∨
    (∃ e, (FileLock.acquire st start_time trace).1 = .osErr e st) ∨
    (FileLock.acquire st start_time trace).1 = .outOfTrace st := by
  induction trace with
  | nil => right; right; right; rfl
  | cons o rest ih =>
    cases o with
    | ok f => left; exact ⟨f, rfl⟩
    | err e now =>
      by_cases h1 : ¬ (e = EEXIST ∨ e = EACCES)
      · right; right; left; exact ⟨e, by simp [FileLock.acquire, h1]⟩
      · by_cases h2 : st.timeout_sec ≤ now - start_time
        · right; left; simp [FileLock.acquire, h1, h2]
        · have heq : (FileLock.acquire st start_time (OpenOutcome.err e now :: rest)).1 =
              (FileLock.acquire st start_time rest).1 := by
            simp [FileLock.acquire, h1, h2]
          rw [heq]; exact ih

/-- The analogue of `acquire_shape` for the world-model retry loop. -/
theorem acquireFSLoop_shape (fuel : Nat) (st : FileLock) (start_time : Rat) (w : World) :
    (∃ f, (FileLock.acquireFSLoop fuel st start_time w).1 =
      .success { st with fd := some f, is_locked := true }) ∨
    (FileLock.acquireFSLoop fuel st start_time w).1 = .timeoutErr (timeoutMsg st) st ∨
    (FileLock.acquireFSLoop fuel st start_time w).1 = .outOfTrace st := by
  induction fuel generalizing w with
  | zero => right; right; rfl
  | succ n ih =>
    cases hop : osOpenExcl w st.lockfile with
    | ok f w1 => left; exact ⟨f, by simp [FileLock.acquireFSLoop, hop]⟩
    | alreadyExists w1 =>
      by_cases h2 : st.timeout_sec ≤ w1.now - start_time
      · right; left; simp [FileLock.acquireFSLoop, hop, h2]
      · have heq : (FileLock.acquireFSLoop (n + 1) st start_time w).1 =
            (FileLock.acquireFSLoop n st start_time
              { w1 with now := w1.now + st.retry_delay_sec }).1 := by
          simp [FileLock.acquireFSLoop, hop, h2]
        rw [heq]; exact ih _

/-- `release` either returns normally — the new state being the old one
with only `is_locked` cleared (`fd` is never reset) — or raises with the
instance exactly as it started. -/
theorem release_shape (st : FileLock) (w : World) :
    (∃ w', FileLock.release st w = .ok { st with is_locked := false } w') ∨
    (∃ e w', FileLock.release st w = .raised e st w') := by
  obtain ⟨lf, fd, il, ts, rs⟩ := st
  cases fd with
  | none => right; exact ⟨.typeError, w, rfl⟩
  | some f =>
    by_cases h1 : f ∈ w.openFds
    · by_cases h2 : lf ∈ w.files
      · left
        exact ⟨{ files := w.files.erase lf, openFds := w.openFds.erase f,
                 nextFd := w.nextFd, now := w.now },
               by simp [FileLock.release, h1, h2]⟩
      · right
        exact ⟨.osError ENOENT,
               { files := w.files, openFds := w.openFds.erase f,
                 nextFd := w.nextFd, now := w.now },
               by simp [FileLock.release, h1, h2]⟩
    · right; exact ⟨.osError EBADF, w, by simp [FileLock.release, h1]⟩

/-! ### C5: errno classification in acquire -/

/-- C5: an `OSError` whose errno is neither `EEXIST` nor `EACCES` is
re-raised at once — no sleep, no further attempt, whatever the rest of the
trace holds; an errno in `(EEXIST, EACCES)` enters the timeout/retry path:
raise `FileLockException` when the elapsed time has reached `timeout_sec`,
otherwise sleep `retry_delay_sec` once and retry on the rest. -/
theorem C5_errno_classification (st : FileLock) (start_time : Rat) (e : Nat)
    (now : Rat) (rest : List OpenOutcome) :
    (¬ (e = EEXIST ∨ e = EACCES) →
      FileLock.acquire st start_time (OpenOutcome.err e now :: rest) =
        (AcquireResult.osErr e st, [])) ∧
    ((e = EEXIST ∨ e = EACCES) →
      FileLock.acquire st start_time (OpenOutcome.err e now :: rest) =
        if st.timeout_sec ≤ now - start_time then
          (AcquireResult.timeoutErr (timeoutMsg st) st, [])
        else
          ((FileLock.acquire st start_time rest).1,
            st.retry_delay_sec :: (FileLock.acquire st start_time rest).2)) := by
  constructor
  · intro h; simp [FileLock.acquire, h]
  · intro h
    by_cases h2 : st.timeout_sec ≤ now - start_time <;>
      simp [FileLock.acquire, h, h2]

/-- Witness for C5: `ENOENT` (missing folder) propagates at once with no
sleep; `EACCES` at elapsed time 0 against a 300-second timeout sleeps once
and retries. -/
theorem C5_witness :
    FileLock.acquire sampleLock 0 [OpenOutcome.err ENOENT 0] =
      (AcquireResult.osErr ENOENT sampleLock, []) ∧
    FileLock.acquire sampleLock 0 [OpenOutcome.err EACCES 0, OpenOutcome.ok 5] =
      (if sampleLock.timeout_sec ≤ 0 - 0 then
        (AcquireResult.timeoutErr (timeoutMsg sampleLock) sampleLock, [])
      else
        ((FileLock.acquire sampleLock 0 [OpenOutcome.ok 5]).1,
          sampleLock.retry_delay_sec :: (FileLock.acquire sampleLock 0 [OpenOutcome.ok 5]).2)) :=
  ⟨(C5_errno_classification sampleLock 0 ENOENT 0 []).1 (by decide),
   (C5_errno_classification sampleLock 0 EACCES 0 [OpenOutcome.ok 5]).2 (Or.inr rfl)⟩

/-! ### C10: acquire changes no state when it raises -/

/-- C10: whenever `acquire` terminates by raising — the timeout error or a
propagated `OSError` — the instance is exactly as it was before the call;
`fd` and `is_locked` are written only on a successful exclusive creation,
and then they are the only fields written. -/
theorem C10_acquire_error_atomicity (st : FileLock) (start_time : Rat)
    (trace : List OpenOutcome) :
    (∀ m st1, (FileLock.acquire st start_time trace).1 = .timeoutErr m st1 → st1 = st) ∧
    (∀ e st1, (FileLock.acquire st start_time trace).1 = .osErr e st1 → st1 = st) ∧
    (∀ st1, (FileLock.acquire st start_time trace).1 = .success st1 →
      ∃ f, st1 = { st with fd := some f, is_locked := true }) := by
  refine ⟨?_, ?_, ?_⟩
  · intro m st1 heq
    rcases acquire_shape st start_time trace with ⟨f, h⟩ | h | ⟨e0, h⟩ | h <;>
      rw [h] at heq
    · injection heq
    · injection heq with h1 h2; exact h2.symm
    · injection heq
    · injection heq
  · intro e st1 heq
    rcases acquire_shape st start_time trace with ⟨f, h⟩ | h | ⟨e0, h⟩ | h <;>
      rw [h] at heq
    · injection heq
    · injection heq
    · injection heq with h1 h2; exact h2.symm
    · injection heq
  · intro st1 heq
    rcases acquire_shape st start_time trace with ⟨f, h⟩ | h | ⟨e0, h⟩ | h <;>
      rw [h] at heq
    · injection heq with h2; exact ⟨f, h2.symm⟩
    · injection heq
    · injection heq
    · injection heq

/-- Witness for C10: a successful first attempt returning descriptor 5
sets exactly `fd` and `is_locked`. -/
theorem C10_witness :
    ∃ f, ({ sampleLock with fd := some 5, is_locked := true } : FileLock) =
      { sampleLock with fd := some f, is_locked := true } :=
  (C10_acquire_error_atomicity sampleLock 0 [OpenOutcome.ok 5]).2.2
    { sampleLock with fd := some 5, is_locked := true } rfl

/-! ### C1: re-entrant acquire -/

/-- Counterexample to C1 as stated: on an instance that already holds the
lock, a direct second call to `acquire` is not a no-op.  The instance's
own lock file exists, so the open attempt fails with `EEXIST` and the call
enters the retry loop; once the elapsed time reaches `timeout_sec` it
raises the timeout `FileLockException` instead of returning normally. -/
theorem C1_counterexample :
    sampleHeld.is_locked = true ∧
    FileLock.acquire sampleHeld 0 [OpenOutcome.err EEXIST 300] =
      (AcquireResult.timeoutErr "Timeout occurred for lockfile 'd/f.lock'" sampleHeld, []) ∧
    (FileLock.acquire sampleHeld 0 [OpenOutcome.err EEXIST 300]).1 ≠
      AcquireResult.success sampleHeld := by
  refine ⟨rfl, ?_, ?_⟩
  · simp +decide [FileLock.acquire, sampleHeld, sampleLock, FileLock.init,
      timeoutMsg, osPathJoin, EEXIST, EACCES]
  · have h : FileLock.acquire sampleHeld 0 [OpenOutcome.err EEXIST 300] =
        (AcquireResult.timeoutErr "Timeout occurred for lockfile 'd/f.lock'" sampleHeld, []) := by
      simp +decide [FileLock.acquire, sampleHeld, sampleLock, FileLock.init,
        timeoutMsg, osPathJoin, EEXIST, EACCES]
    rw [h]
    simp

/-- C1 amended: re-entrancy is handled by scope entry, not by `acquire`.
`__enter__` on an already-held instance is a no-op — no creation attempt,
state and world unchanged — while a direct `acquire` call on a held
instance does re-attempt exclusive creation: with its own lock file still
present the attempt fails `EEXIST`, and once the elapsed time reaches
`timeout_sec` the call raises the timeout error (state unchanged). -/
theorem C1_reentrancy_located :
    (∀ fuel st w, st.is_locked = true →
      FileLock.scopeEnter fuel st w = (AcquireResult.success st, w)) ∧
    (∀ (st : FileLock) (start_time t : Rat) (rest : List OpenOutcome),
      st.is_locked = true → st.timeout_sec ≤ t - start_time →
      FileLock.acquire st start_time (OpenOutcome.err EEXIST t :: rest) =
        (AcquireResult.timeoutErr (timeoutMsg st) st, [])) := by
  constructor
  · intro fuel st w h; simp [FileLock.scopeEnter, h]
  · intro st start_time t rest _ ht; simp [FileLock.acquire, ht]

/-- Witness for C1 (amended): `__enter__` on the held sample instance is a
no-op; a direct `acquire` on it times out at elapsed time 300 s. -/
theorem C1_witness :
    FileLock.scopeEnter 1 sampleHeld sampleWorldHeld =
      (AcquireResult.success sampleHeld, sampleWorldHeld) ∧
    FileLock.acquire sampleHeld 0 [OpenOutcome.err EEXIST 300] =
      (AcquireResult.timeoutErr (timeoutMsg sampleHeld) sampleHeld, []) :=
  ⟨C1_reentrancy_located.1 1 sampleHeld sampleWorldHeld rfl,
   C1_reentrancy_located.2 sampleHeld 0 300 [] rfl
     (show (300 : Rat) ≤ 300 - 0 by norm_num)⟩

/-! ### C2: release when not held -/

/-- Counterexample to C2 as stated: on a freshly constructed instance
(`is_locked = false`, `fd = None`), `release()` is not a no-op — it raises
a `TypeError` from `os.close(None)`. -/
theorem C2_counterexample :
    sampleLock.is_locked = false ∧
    FileLock.release sampleLock sampleWorld0 =
      RelResult.raised PyErr.typeError sampleLock sampleWorld0 :=
  ⟨rfl, rfl⟩

/-- C2 amended: `release` is unguarded — on an instance whose handle is
`None` (never acquired) it raises a `TypeError` from `os.close(None)`; the
documented not-held no-op lives in `__exit__`, which skips `release`
whenever `is_locked` is false and leaves instance and world unchanged. -/
theorem C2_release_unguarded :
    (∀ st w, st.fd = none →
      FileLock.release st w = RelResult.raised PyErr.typeError st w) ∧
    (∀ st w, st.is_locked = false →
      FileLock.scopeExit st w = RelResult.ok st w) := by
  constructor
  · intro st w h
    obtain ⟨lf, fd, il, ts, rs⟩ := st
    cases h
    rfl
  · intro st w h; simp [FileLock.scopeExit, h]

/-- Witness for C2 (amended) at the fresh sample instance. -/
theorem C2_witness :
    FileLock.release sampleLock sampleWorld0 =
      RelResult.raised PyErr.typeError sampleLock sampleWorld0 ∧
    FileLock.scopeExit sampleLock sampleWorld0 = RelResult.ok sampleLock sampleWorld0 :=
  ⟨C2_release_unguarded.1 sampleLock sampleWorld0 rfl,
   C2_release_unguarded.2 sampleLock sampleWorld0 rfl⟩

/-! ### C3: the handle/held-flag invariant -/

/-- Counterexample to C3 as stated: the two-sided invariant
"`fd` non-null iff `is_locked`" holds on the held sample instance, yet a
successful `release` — which clears `is_locked` but never resets `fd` —
produces a state with `fd = some 0` and `is_locked = false`, violating the
iff. -/
theorem C3_counterexample :
    (sampleHeld.fd ≠ none ↔ sampleHeld.is_locked = true) ∧
    FileLock.release sampleHeld sampleWorldHeld =
      RelResult.ok { sampleHeld with is_locked := false }
        { files := [], openFds := [], nextFd := 1, now := 0 } ∧
    ¬ (({ sampleHeld with is_locked := false } : FileLock).fd ≠ none ↔
       ({ sampleHeld with is_locked := false } : FileLock).is_locked = true) := by
  refine ⟨by decide, ?_, by decide⟩
  simp +decide [FileLock.release, sampleHeld, sampleLock, FileLock.init,
    sampleWorldHeld, osPathJoin, ENOENT, EBADF]

/-- C3 amended: only one direction survives `release`: whenever
`is_locked` is true the handle is non-`None`.  This holds after
construction and is preserved — starting from any state satisfying it —
by `acquire` (both models), `release`, scope entry and scope exit, on
every terminating path, normal or raising. -/
theorem C3_handleInv_preserved :
    (∀ folder filename t r, HandleInv (FileLock.init folder filename t r)) ∧
    (∀ st start_time trace, HandleInv st →
      HandleInv ((FileLock.acquire st start_time trace).1.state)) ∧
    (∀ fuel st w, HandleInv st →
      HandleInv ((FileLock.acquireFS fuel st w).1.state)) ∧
    (∀ st w, HandleInv st → HandleInv ((FileLock.release st w).state)) ∧
    (∀ fuel st w, HandleInv st →
      HandleInv ((FileLock.scopeEnter fuel st w).1.state)) ∧
    (∀ st w, HandleInv st → HandleInv ((FileLock.scopeExit st w).state)) := by
  have hacq : ∀ st (start_time : Rat) trace, HandleInv st →
      HandleInv ((FileLock.acquire st start_time trace).1.state) := by
    intro st start_time trace h
    rcases acquire_shape st start_time trace with ⟨f, heq⟩ | heq | ⟨e, heq⟩ | heq <;>
      rw [heq] <;> simp [AcquireResult.state, HandleInv] <;> exact h
  have hfs : ∀ fuel st w, HandleInv st →
      HandleInv ((FileLock.acquireFS fuel st w).1.state) := by
    intro fuel st w h
    rcases acquireFSLoop_shape fuel st w.now w with ⟨f, heq⟩ | heq | heq <;>
      rw [FileLock.acquireFS, heq] <;> simp [AcquireResult.state, HandleInv] <;> exact h
  have hrel : ∀ st w, HandleInv st → HandleInv ((FileLock.release st w).state) := by
    intro st w h
    rcases release_shape st w with ⟨w', heq⟩ | ⟨e, w', heq⟩ <;> rw [heq]
    · intro hc; simp [RelResult.state] at hc
    · exact h
  refine ⟨?_, hacq, hfs, hrel, ?_, ?_⟩
  · intro folder filename t r hc
    simp [FileLock.init] at hc
  · intro fuel st w h
    by_cases hl : st.is_locked = true
    · simp only [FileLock.scopeEnter, hl, if_true]
      exact h
    · simp only [FileLock.scopeEnter, hl, if_false]
      have := hfs fuel st w h
      simp only [Bool.not_eq_true] at hl
      simp [hl] at *
      exact this
  · intro st w h
    by_cases hl : st.is_locked = true
    · simp only [FileLock.scopeExit, hl, if_true]
      exact hrel st w h
    · simp only [FileLock.scopeExit, hl]
      simp only [Bool.not_eq_true] at hl
      simp [hl]
      exact fun hc => h hc

/-- Witness for C3 (amended): the preserved direction after releasing the
held sample instance. -/
theorem C3_witness :
    HandleInv ((FileLock.release sampleHeld sampleWorldHeld).state) :=
  C3_handleInv_preserved.2.2.2.1 sampleHeld sampleWorldHeld (fun _ => by decide)

/-! ### C7: round trip -/

/-- C7: starting from any instance and any filesystem in which the lock
path does not exist, `acquire` succeeds on its first attempt (any positive
fuel, clock untouched); the following `release` returns normally, deleting
the path outright — the file set reverts to exactly the original one, in
which the lock path is absent; and a subsequent `acquire` with fuel for
only a single attempt succeeds immediately. -/
theorem C7_round_trip (st : FileLock) (w : World) (fuel : Nat)
    (h : st.lockfile ∉ w.files) :
    FileLock.acquireFS (fuel + 1) st w =
      (AcquireResult.success { st with fd := some w.nextFd, is_locked := true },
       { files := st.lockfile :: w.files, openFds := w.nextFd :: w.openFds,
         nextFd := w.nextFd + 1, now := w.now }) ∧
    FileLock.release { st with fd := some w.nextFd, is_locked := true }
        { files := st.lockfile :: w.files, openFds := w.nextFd :: w.openFds,
          nextFd := w.nextFd + 1, now := w.now } =
      RelResult.ok { st with fd := some w.nextFd, is_locked := false }
        { files := w.files, openFds := w.openFds, nextFd := w.nextFd + 1, now := w.now } ∧
    st.lockfile ∉ w.files ∧
    FileLock.acquireFS 1 { st with fd := some w.nextFd, is_locked := false }
        { files := w.files, openFds := w.openFds, nextFd := w.nextFd + 1, now := w.now } =
      (AcquireResult.success { st with fd := some (w.nextFd + 1), is_locked := true },
       { files := st.lockfile :: w.files, openFds := (w.nextFd + 1) :: w.openFds,
         nextFd := w.nextFd + 2, now := w.now }) := by
  refine ⟨?_, ?_, h, ?_⟩
  · simp [FileLock.acquireFS, FileLock.acquireFSLoop, osOpenExcl, h]
  · simp [FileLock.release, List.erase_cons_head, h]
  · simp [FileLock.acquireFS, FileLock.acquireFSLoop, osOpenExcl, h]

/-- Witness for C7: the full round trip on the sample instance against the
empty filesystem. -/
theorem C7_witness :
    FileLock.acquireFS 1 sampleLock sampleWorld0 =
      (AcquireResult.success sampleHeld, sampleWorldHeld) ∧
    FileLock.release sampleHeld sampleWorldHeld =
      RelResult.ok { sampleHeld with is_locked := false }
        { files := [], openFds := [], nextFd := 1, now := 0 } ∧
    sampleLock.lockfile ∉ sampleWorld0.files ∧
    FileLock.acquireFS 1 { sampleHeld with is_locked := false }
        { files := [], openFds := [], nextFd := 1, now := 0 } =
      (AcquireResult.success { sampleLock with fd := some 1, is_locked := true },
       { files := ["d/f.lock"], openFds := [1], nextFd := 2, now := 0 }) :=
  C7_round_trip sampleLock sampleWorld0 0 (by decide)

/-! ### C8: scoped acquisition -/

/-- C8: `__enter__` calls `acquire` exactly when the held flag is false
(on a held instance it is a no-op on state and world), and whenever it
returns normally the returned instance holds the lock; `__exit__` calls
`release` exactly when the held flag is true (otherwise it is a no-op),
and a normal exit from a holding scope leaves the flag cleared. -/
theorem C8_scoped_acquisition :
    (∀ fuel st w, st.is_locked = true →
      FileLock.scopeEnter fuel st w = (AcquireResult.success st, w)) ∧
    (∀ fuel st w, st.is_locked = false →
      FileLock.scopeEnter fuel st w = FileLock.acquireFS fuel st w) ∧
    (∀ fuel st w r w', FileLock.scopeEnter fuel st w = (AcquireResult.success r, w') →
      r.is_locked = true) ∧
    (∀ st w, st.is_locked = false → FileLock.scopeExit st w = RelResult.ok st w) ∧
    (∀ st w, st.is_locked = true → FileLock.scopeExit st w = FileLock.release st w) ∧
    (∀ st w st' w', st.is_locked = true →
      FileLock.scopeExit st w = RelResult.ok st' w' → st'.is_locked = false) := by
  refine ⟨?_, ?_, ?_, ?_, ?_, ?_⟩
  · intro fuel st w h; simp [FileLock.scopeEnter, h]
  · intro fuel st w h; simp [FileLock.scopeEnter, h]
  · intro fuel st w r w' heq
    by_cases hl : st.is_locked = true
    · simp only [FileLock.scopeEnter, hl, if_true] at heq
      injection heq with h1 h2
      injection h1 with h1
      rw [← h1]; exact hl
    · simp only [FileLock.scopeEnter] at heq
      rw [if_neg hl] at heq
      have hsh := acquireFSLoop_shape fuel st w.now w
      rw [show FileLock.acquireFS fuel st w = FileLock.acquireFSLoop fuel st w.now w from rfl]
        at heq
      have h1 : (FileLock.acquireFSLoop fuel st w.now w).1 = AcquireResult.success r := by
        rw [heq]
      rcases hsh with ⟨f, hs⟩ | hs | hs <;> rw [hs] at h1
      · injection h1 with h1; rw [← h1]
      · injection h1
      · injection h1
  · intro st w h; simp [FileLock.scopeExit, h]
  · intro st w h; simp [FileLock.scopeExit, h]
  · intro st w st' w' hl heq
    simp only [FileLock.scopeExit, hl, if_true] at heq
    rcases release_shape st w with ⟨wr, hs⟩ | ⟨e, wr, hs⟩ <;> rw [hs] at heq
    · injection heq with h1 h2; rw [← h1]
    · injection heq

/-- Witness for C8: entry on the held sample instance is a no-op; exit on
the fresh instance is a no-op; exit on the held instance releases. -/
theorem C8_witness :
    FileLock.scopeEnter 1 sampleHeld sampleWorldHeld =
      (AcquireResult.success sampleHeld, sampleWorldHeld) ∧
    FileLock.scopeExit sampleLock sampleWorld0 = RelResult.ok sampleLock sampleWorld0 ∧
    ({ sampleHeld with is_locked := false } : FileLock).is_locked = false := by
  refine ⟨C8_scoped_acquisition.1 1 sampleHeld sampleWorldHeld rfl,
          C8_scoped_acquisition.2.2.2.1 sampleLock sampleWorld0 rfl,
          C8_scoped_acquisition.2.2.2.2.2 sampleHeld sampleWorldHeld
            { sampleHeld with is_locked := false }
            { files := [], openFds := [], nextFd := 1, now := 0 } rfl ?_⟩
  simp +decide [FileLock.scopeExit, FileLock.release, sampleHeld, sampleLock,
    FileLock.init, sampleWorldHeld, osPathJoin, ENOENT, EBADF]

/-! ### C9: mutual exclusion -/

/-- The inductive invariant holds initially. -/
theorem sysInv_init : SysInv SysInit := by
  constructor <;> intro h <;> exact absurd h (by decide)

/-- The inductive invariant is preserved by every system transition. -/
theorem sysInv_step (s s' : SysState) (hs : SysStep s s') (h : SysInv s) :
    SysInv s' := by
  obtain ⟨h1, h2⟩ := h
  cases hs with
  | acquire1 hfile hnot =>
    refine ⟨fun _ => ⟨?_, rfl⟩, fun hh => ?_⟩
    · show s.holds2 = false
      cases hb : s.holds2
      · rfl
      · exact absurd (h2 hb).2 (by simp [hfile])
    · exact absurd (h2 hh).2 (by simp [hfile])
  | acquire2 hfile hnot =>
    refine ⟨fun hh => ?_, fun _ => ⟨?_, rfl⟩⟩
    · exact absurd (h1 hh).2 (by simp [hfile])
    · show s.holds1 = false
      cases hb : s.holds1
      · rfl
      · exact absurd (h1 hb).2 (by simp [hfile])
  | attemptFail hfile => exact ⟨h1, h2⟩
  | release1 hh =>
    refine ⟨fun hc => ?_, fun hc => ?_⟩
    · exact absurd hc (by simp)
    · exact absurd hc (by simp [(h1 hh).1])
  | release2 hh =>
    refine ⟨fun hc => ?_, fun hc => ?_⟩
    · exact absurd hc (by simp [(h2 hh).1])
    · exact absurd hc (by simp)

/-- Every reachable system state satisfies the inductive invariant. -/
theorem sysReachable_inv (s : SysState) (h : SysReachable s) : SysInv s := by
  induction h with
  | refl => exact sysInv_init
  | tail hab hbc ih => exact sysInv_step _ _ hbc ih

/-- C9: in every reachable state of the two-process system, at most one
process holds the lock; and while one process holds it, no transition —
in particular no acquisition attempt by the other process, whose
exclusive create must fail on the existing lock file — can make the other
a holder: the second process can succeed only after a release. -/
theorem C9_mutual_exclusion (s : SysState) (hreach : SysReachable s) :
    ¬ (s.holds1 = true ∧ s.holds2 = true) ∧
    (s.holds1 = true → ∀ s', SysStep s s' → s'.holds2 = false) ∧
    (s.holds2 = true → ∀ s', SysStep s s' → s'.holds1 = false) := by
  have hinv := sysReachable_inv s hreach
  refine ⟨?_, ?_, ?_⟩
  · rintro ⟨ha, hb⟩
    exact absurd hb (by simp [(hinv.1 ha).1])
  · intro ha s' hs
    have h2 : s.holds2 = false := (hinv.1 ha).1
    have hf : s.fileExists = true := (hinv.1 ha).2
    cases hs with
    | acquire1 hfile hnot => exact absurd hf (by simp [hfile])
    | acquire2 hfile hnot => exact absurd hf (by simp [hfile])
    | attemptFail hfile => exact h2
    | release1 hh => exact h2
    | release2 hh => exact absurd hh (by simp [h2])
  · intro hb s' hs
    have h1 : s.holds1 = false := (hinv.2 hb).1
    have hf : s.fileExists = true := (hinv.2 hb).2
    cases hs with
    | acquire1 hfile hnot => exact absurd hf (by simp [hfile])
    | acquire2 hfile hnot => exact absurd hf (by simp [hfile])
    | attemptFail hfile => exact h1
    | release1 hh => exact absurd hh (by simp [h1])
    | release2 hh => exact h1

/-- Witness for C9 at the reachable state in which process 1 holds the
lock: process 2 can become a holder through no transition. -/
theorem C9_witness :
    ¬ (sampleSysHeld.holds1 = true ∧ sampleSysHeld.holds2 = true) ∧
    (∀ s', SysStep sampleSysHeld s' → s'.holds2 = false) := by
  have h := C9_mutual_exclusion sampleSysHeld
    (Relation.ReflTransGen.single (SysStep.acquire1 SysInit rfl rfl))
  exact ⟨h.1, fun s' hs => h.2.1 rfl s' hs⟩
